import Mathlib

/-!
Formal model of the WCS Survey Editor (`app.py`, v47).

The tool extracts "sales blocks" from the text of an uploaded survey-sheet
PDF with a multiline regular expression, attaches reference/location/system
metadata found near a "reference" anchor line, lets the user type measured
dimensions, re-renders the PDF with colour-coded annotations (blue within
tolerance, red when a dimension differs from the order by more than 75 mm)
and exports a combined spreadsheet.

The extracted PDF text is modelled as a `List String` of lines (the Python
code joins the per-page text with `"\n"` and works both on the joined text
and on `text.splitlines()`); each line is assumed to contain no newline
character, which is how PyMuPDF's `get_text("text")` produces it.  Python
floats are modelled as exact rationals plus a separate NaN constructor;
machine rounding plays no role in any property below.
-/

/-- Python's `\s` / `str.strip` whitespace, restricted to ASCII. -/
def pySpace (c : Char) : Bool :=
  c = ' ' || c = '\t' || c = '\n' || c = '\r' || c = '\x0b' || c = '\x0c'

/-- Python `str.strip()`: drop whitespace from both ends. -/
def stripPy (s : String) : String :=
  String.mk (((s.toList.dropWhile pySpace).reverse.dropWhile pySpace).reverse)

/-- A line consisting only of whitespace (or empty).  Such lines can be
consumed by the `\s*` parts of the extraction regex. -/
def isBlank (s : String) : Bool :=
  s.toList.all pySpace

/-- Value of a string of decimal digits, as `int()` computes it. -/
def natOfDigits (l : List Char) : Nat :=
  l.foldl (fun n c => n * 10 + (c.toNat - '0'.toNat)) 0

/-- The line shape accepted by the first regex line `^\s*(0\d{3})\s*?\n`:
after stripping, exactly `0` followed by three digits. -/
def tok1 (s : String) : Bool :=
  match (stripPy s).toList with
  | '0' :: rest => rest.length == 3 && rest.all Char.isDigit
  | _ => false

/-- The line shape accepted by the second regex line `^\s*1\s*?\n`. -/
def tok2 (s : String) : Bool :=
  stripPy s == "1"

/-- The line shape accepted by the third and fourth regex lines
`^\s*(\d{2,4})\s*?\n`: after stripping, two to four digits. -/
def tok34 (s : String) : Bool :=
  let t := (stripPy s).toList
  decide (2 ≤ t.length) && decide (t.length ≤ 4) && t.all Char.isDigit

/-- First non-blank line at index `≥ j`, scanning with explicit fuel.
`fuel = L.length - j` steps are exactly enough to reach the end. -/
def firstNonBlankAux (L : List String) (j : Nat) : Nat → Option Nat
  | 0 => none
  | fuel + 1 =>
    if L.length ≤ j then none
    else if isBlank (L.getD j "") then firstNonBlankAux L (j + 1) fuel
    else some j

/-- Index of the first non-blank line at or after `j`.  This is where the
`\s*` prefix of each regex line stops: `\s` matches `\n`, so the regex can
consume whole whitespace-only lines before the next token. -/
def firstNonBlank (L : List String) (j : Nat) : Option Nat :=
  firstNonBlankAux L j (L.length - j)

/-- Attempt of the extraction regex at the start of line `j`.  The pattern
`^\s*(0\d{3})\s*?\n ^\s*1\s*?\n ^\s*(\d{2,4})\s*?\n ^\s*(\d{2,4})\s*?\n`
(MULTILINE) succeeds from the start of line `j` exactly when the chain of
first non-blank lines from `j` on has the four token shapes: each `^\s*`
skips whitespace, including whole blank lines, and each `\s*?\n` consumes
the rest of the token's line, so the four tokens sit on the successive
non-blank lines.  Returns their indices `(a, b, c, d)`. -/
def matchFrom (L : List String) (j : Nat) : Option (Nat × Nat × Nat × Nat) :=
  match firstNonBlank L j with
  | none => none
  | some a =>
    if tok1 (L.getD a "") then
      match firstNonBlank L (a + 1) with
      | none => none
      | some b =>
        if tok2 (L.getD b "") then
          match firstNonBlank L (b + 1) with
          | none => none
          | some c =>
            if tok34 (L.getD c "") then
              match firstNonBlank L (c + 1) with
              | none => none
              | some d => if tok34 (L.getD d "") then some (a, b, c, d) else none
            else none
        else none
    else none

/-- Line predicate of the metadata scan:
`lines[j].strip().lower().startswith("reference")`. -/
def isRefLine (s : String) : Bool :=
  "reference".toList.isPrefixOf ((stripPy s).toList.map Char.toLower)

/-- The anchor search loop
`for j in range(start, min(start + 100, len(lines)))`, with the window
size as fuel: returns the first index in the window whose line satisfies
`isRefLine`, or `none` when the loop falls through to its `else`. -/
def findAnchorAux (L : List String) (j : Nat) : Nat → Option Nat
  | 0 => none
  | fuel + 1 =>
    if isRefLine (L.getD j "") then some j else findAnchorAux L (j + 1) fuel

/-- Anchor line for the block starting at line `start`. -/
def findAnchor (L : List String) (start : Nat) : Option Nat :=
  findAnchorAux L start (min (start + 100) L.length - start)

/-- The `reference`, `location`, `system` metadata picked for a block whose
regex match starts at line `start`: the three lines immediately before the
anchor (stripped), or three empty strings when there is no anchor in the
window or the anchor index is `< 3`. -/
def metaFields (L : List String) (start : Nat) : String × String × String :=
  match findAnchor L start with
  | some k =>
    if 3 ≤ k then
      (stripPy (L.getD (k - 3) ""), stripPy (L.getD (k - 2) ""), stripPy (L.getD (k - 1) ""))
    else ("", "", "")
  | none => ("", "", "")

/-- Excess-over-75 comparison on Python floats: `abs(o - s) > 75` is false
whenever either operand is NaN. -/
inductive PF where
  | num (q : ℚ)
  | nan
deriving DecidableEq

/-- One row of the editor table, as built by `extract_sales_blocks`. -/
structure Block where
  sales_line : String
  order_width : Nat
  order_height : Nat
  reference : String
  location : String
  system : String
  width : Option PF
  height : Option PF
  location_input : String
  remarks : String
deriving DecidableEq

/-- The dict appended for a regex match starting at line `j` with token
lines `a` (sales line, group 1), `c` (height, group 2) and `d` (width,
group 3).  When the match succeeded, each captured group equals the
stripped content of its line, and `int()` of a digit string is
`natOfDigits`. -/
def mkBlock (L : List String) (j a c d : Nat) : Block :=
  { sales_line := stripPy (L.getD a "")
    order_width := natOfDigits (stripPy (L.getD d "")).toList
    order_height := natOfDigits (stripPy (L.getD c "")).toList
    reference := (metaFields L j).1
    location := (metaFields L j).2.1
    system := (metaFields L j).2.2
    width := none
    height := none
    location_input := ""
    remarks := "" }

/-- `pattern.finditer` over the joined text: try each line start from `j`
upward (`^` only matches at line starts), emit a block at the first start
where the regex succeeds, and resume just after the fourth token's newline,
i.e. at line `d + 1`.  Each step advances the scan position, so
`L.length + 1` fuel is never exhausted. -/
def scanFrom (L : List String) (j : Nat) : Nat → List Block
  | 0 => []
  | fuel + 1 =>
    if L.length ≤ j then []
    else
      match matchFrom L j with
      | some (a, _b, c, d) => mkBlock L j a c d :: scanFrom L (d + 1) fuel
      | none => scanFrom L (j + 1) fuel

/-- `extract_sales_blocks`, over the extracted text split into lines. -/
def extract_sales_blocks (L : List String) : List Block :=
  scanFrom L 0 (L.length + 1)

/-- Spec-side reading of the sales-block definition: one block per run of
four CONSECUTIVE lines matching the four token shapes.  Used to compare the
specified behaviour with the implemented one. -/
def consecutive_blocks (L : List String) : List Block :=
  (List.range L.length).filterMap (fun i =>
    if decide (i + 3 < L.length) && tok1 (L.getD i "") && tok2 (L.getD (i + 1) "") &&
        tok34 (L.getD (i + 2) "") && tok34 (L.getD (i + 3) "") then
      some (mkBlock L i i (i + 2) (i + 3))
    else none)

/-- A Python value that can show up in a `st.data_editor` cell or in one of
the dict records passed to `update_pdf`: `None`, a number (int or float,
modelled exactly), the float NaN, a string, a list or numpy array, or a
dict. -/
inductive PyVal where
  | pnone
  | pnum (q : ℚ)
  | pnan
  | pstr (s : String)
  | plist (xs : List PyVal)
  | pdict (kvs : List (String × PyVal))

/-- Truth value of `pd.isna(val)` as used in `if pd.isna(val) or ...`.
For a scalar, `pd.isna` returns a bool (`True` for `None`/NaN).  For a
list or array it returns a boolean array, and taking its truth value
raises `ValueError` unless the array has exactly one element, in which
case the truth value is that of the single elementwise result. -/
def isna_truth : PyVal → Except String Bool
  | .plist [x] => isna_truth x
  | .plist _ => .error "ValueError: ambiguous truth value"
  | .pnone => .ok true
  | .pnan => .ok true
  | .pnum _ => .ok false
  | .pstr _ => .ok false
  | .pdict _ => .ok false

/-- Truth value of `val == ""`: true only for the empty string (lists,
dicts and numbers compare unequal to a string). -/
def py_eq_empty : PyVal → Bool
  | .pstr s => s == ""
  | _ => false

/-- `'value' in val` followed by `val['value']`. -/
def lookup_value (kvs : List (String × PyVal)) : Option PyVal :=
  (kvs.find? (fun p => p.1 == "value")).map Prod.snd

/-- The dict branch of `extract_editor_value`: take `val['value']` if the
key exists, else the first value of a non-empty dict, else leave the
(empty) dict unchanged. -/
def dict_step : PyVal → PyVal
  | .pdict kvs =>
    match lookup_value kvs with
    | some v => v
    | none =>
      match kvs with
      | [] => .pdict []
      | (_, v) :: _ => v
  | v => v

/-- Modelled subset of Python `float(str)`: surrounding whitespace, an
optional sign, decimal digits with an optional fractional part.  Exotic
accepted forms (exponents, `inf`, `nan`, underscores) are not modelled;
every unmodelled or malformed string yields `none`, matching the
`ValueError` that `extract_editor_value` catches. -/
def parseUnsigned (l : List Char) : Option ℚ :=
  let intPart := l.takeWhile Char.isDigit
  let rest := l.dropWhile Char.isDigit
  match rest with
  | [] => if intPart.isEmpty then none else some (natOfDigits intPart)
  | '.' :: frac =>
    if frac.all Char.isDigit && !(intPart.isEmpty && frac.isEmpty) then
      some ((natOfDigits intPart : ℚ) + (natOfDigits frac : ℚ) / (10 : ℚ) ^ frac.length)
    else none
  | _ => none

def pyFloatOfString (s : String) : Option ℚ :=
  match (stripPy s).toList with
  | '-' :: rest => (parseUnsigned rest).map Neg.neg
  | '+' :: rest => parseUnsigned rest
  | l => parseUnsigned l

/-- `float(val)` wrapped in the `try/except` of `extract_editor_value`:
numbers and NaN convert to themselves, strings are parsed, and every other
type raises `TypeError`, which the caller turns into `None`. -/
def py_float : PyVal → Option PF
  | .pnum q => some (.num q)
  | .pnan => some .nan
  | .pstr s => (pyFloatOfString s).map PF.num
  | _ => none

/-- `extract_editor_value` (app.py lines 64-84).  The only uncaught
exception is the `ValueError` raised by the truth test of `pd.isna(val)`
on a list or array whose length is not one. -/
def extract_editor_value (val : PyVal) : Except String (Option PF) :=
  match isna_truth val with
  | .error e => .error e
  | .ok b =>
    if b || py_eq_empty val then .ok none
    else
      match val with
      | .plist [] => .ok none
      | .plist (x :: _) => .ok (py_float (dict_step x))
      | v => .ok (py_float (dict_step v))

/-- `Except.isOk`, named locally. -/
def except_ok {ε α : Type} : Except ε α → Bool
  | .ok _ => true
  | .error _ => false

/-- An RGB colour as passed to PyMuPDF, components in `[0, 1]`. -/
abbrev RGB := ℚ × ℚ × ℚ

def blue : RGB := (0, 0, 1)

def red : RGB := (1, 0, 0)

/-- A PyMuPDF rectangle. -/
structure Rect where
  x0 : ℚ
  y0 : ℚ
  x1 : ℚ
  y1 : ℚ
deriving DecidableEq

/-- One page of the opened document, with the results of the text searches
`update_pdf` performs on it and its mediabox dimensions. -/
structure Page where
  aperture1 : List Rect
  aperture2 : List Rect
  aperture3 : List Rect
  nameRects : List Rect
  mediaWidth : ℚ
  mediaHeight : ℚ

/-- A drawing primitive issued on a page: `page.draw_rect` with stroke and
fill colours, or `page.insert_text`. -/
inductive DrawOp where
  | drect (page : Nat) (r : Rect) (stroke : Option RGB) (fill : Option RGB) (lineWidth : ℚ)
  | dtext (page : Nat) (x y : ℚ) (content : String) (fontsize : ℚ) (fontname : String)
      (color : RGB)
deriving DecidableEq

def get_fontname_for_page (_p : Page) : String := "tiro"

def font_size : ℚ := 14

def base_offset_x : ℚ := 40

/-- `line_spacing = int(font_size * 1.6)`; Python `int()` truncates toward
zero and the argument is positive, so this is the floor of `22.4`. -/
def line_spacing : ℤ := ((font_size * (16 / 10) : ℚ)).floor

/-- `draw_text_with_colored_border`: nothing for empty text, otherwise the
border rectangle, a white fill over it, and the text at `(x, y)`. -/
def draw_text_with_colored_border (page : Nat) (x y : ℚ) (content : String)
    (fontname : String) (fontsize : ℚ) (color : RGB) (border_color : RGB)
    (border_width : ℚ) : List DrawOp :=
  if content = "" then []
  else
    let r : Rect :=
      { x0 := x - 2
        y0 := y - fontsize * (13 / 10)
        x1 := x - 2 + 280
        y1 := y - fontsize * (13 / 10) + fontsize * (15 / 10) }
    [DrawOp.drect page r (some border_color) none border_width,
     DrawOp.drect page r (some (1, 1, 1)) (some (1, 1, 1)) 0,
     DrawOp.dtext page x y content fontsize fontname color]

/-- One clause of the colour condition:
`order is not None and abs(order - survey) > 75`.  On Python floats the
comparison is false whenever either side is NaN. -/
def dim_mismatch (order : Option PF) (survey : PF) : Bool :=
  match order, survey with
  | some (.num o), .num s => decide (75 < |o - s|)
  | _, _ => false

/-- The colour logic of `update_pdf` (lines 203-211): text and border are
blue by default, and turn red only when both measured dimensions are
present and some present order dimension differs from its measurement by
more than 75. -/
def annotation_colors (sw sh ow oh : Option PF) : RGB × RGB :=
  match sw, sh with
  | some swv, some shv =>
    if dim_mismatch ow swv || dim_mismatch oh shv then (red, red) else (blue, blue)
  | _, _ => (blue, blue)

/-- Round-half-even of an exact rational, as `f"{x:.0f}"` rounds. -/
def roundHalfEven (q : ℚ) : ℤ :=
  let f := q.floor
  let r := q - (f : ℚ)
  if r < 1 / 2 then f
  else if 1 / 2 < r then f + 1
  else if f % 2 = 0 then f else f + 1

/-- `f"{v:.0f}"` on a Python float. -/
def pyFormat0f (v : PF) : String :=
  match v with
  | .num q => toString (roundHalfEven q)
  | .nan => "nan"

/-- The `size_text` built for an entry (lines 186-193). -/
def size_text (sw sh : Option PF) : String :=
  match sw, sh with
  | some w, some h => pyFormat0f w ++ " x " ++ pyFormat0f h
  | some w, none => pyFormat0f w ++ " x --"
  | none, some h => "-- x " ++ pyFormat0f h
  | none, none => "-- x --"

/-- The body of the per-entry loop of `update_pdf` (lines 178-236), after
the four `extract_editor_value` calls: the first annotation line at
`(inst.x1 + 40, inst.y0 + 2)` and, when the stripped remarks are
non-empty, the remarks line `line_spacing` points lower, both with the
colour pair chosen by `annotation_colors`. -/
def entry_ops (page : Nat) (inst : Rect) (fontname : String)
    (sw sh ow oh : Option PF) (location_input remarks : Option String) : List DrawOp :=
  let locS := stripPy (location_input.getD "")
  let remS := stripPy (remarks.getD "")
  let insert_x := inst.x1 + base_offset_x
  let insert_y := inst.y0 + 2
  let line1 := locS ++ " : " ++ size_text sw sh
  let colors := annotation_colors sw sh ow oh
  draw_text_with_colored_border page insert_x insert_y line1 fontname font_size
      colors.1 colors.2 (18 / 10)
    ++ (if remS = "" then []
        else draw_text_with_colored_border page insert_x (insert_y + (line_spacing : ℚ))
          remS fontname font_size colors.1 colors.2 (18 / 10))

/-- Entry dict passed to `update_pdf` (a row of the edited DataFrame). -/
structure Entry where
  width : PyVal
  height : PyVal
  order_width : PyVal
  order_height : PyVal
  location_input : Option String
  remarks : Option String

/-- The per-entry loop body including its `extract_editor_value` calls,
which propagate the `ValueError` described at `isna_truth`. -/
def entry_ops_raw (page : Nat) (inst : Rect) (fontname : String) (e : Entry) :
    Except String (List DrawOp) := do
  let sw ← extract_editor_value e.width
  let sh ← extract_editor_value e.height
  let ow ← extract_editor_value e.order_width
  let oh ← extract_editor_value e.order_height
  pure (entry_ops page inst fontname sw sh ow oh e.location_input e.remarks)

/-- `for page_num, page in enumerate(doc): ... for inst in rects1 + rects2
+ rects3: aperture_positions.append((page_num, inst))`, starting the page
counter at `n`. -/
def aperture_positions_from (n : Nat) : List Page → List (Nat × Rect)
  | [] => []
  | p :: ps =>
    ((p.aperture1 ++ p.aperture2 ++ p.aperture3).map (fun r => (n, r)))
      ++ aperture_positions_from (n + 1) ps

/-- Anchor positions for the "Aperture Size" / "aperture size" /
"ApertureSize" searches, collected in page order. -/
def aperture_positions (pages : List Page) : List (Nat × Rect) :=
  aperture_positions_from 0 pages

/-- Fallback positions on page 0 when no aperture anchor was found. -/
def fallback_positions (p0 : Page) (n : Nat) : List (Nat × Rect) :=
  (List.range n).map (fun idx =>
    (0, { x0 := p0.mediaWidth - 300
          y0 := p0.mediaHeight - 100 + idx * 40
          x1 := p0.mediaWidth - 300 + 250
          y1 := p0.mediaHeight - 100 + idx * 40 + 20 }))

/-- `update_pdf` as the list of drawing primitives it issues.  The
surveyor-name branch (lines 131-150) references the undefined variable
`fontsize` on line 147 (the local is `font_size`), so whenever the name is
non-empty and some page contains the string "Name" it raises `NameError`
before any annotation is drawn; `doc[0]` on an empty document raises
`IndexError`. -/
def update_pdf (pages : List Page) (entries : List Entry) (surveyor_name : String) :
    Except String (List DrawOp) := do
  if surveyor_name != "" && pages.any (fun p => !p.nameRects.isEmpty) then
    throw "NameError: name fontsize is not defined"
  let ap := aperture_positions pages
  let positions ←
    if ap.isEmpty && !entries.isEmpty then
      match pages with
      | [] => throw "IndexError: page 0 is out of range"
      | p0 :: _ => pure (fallback_positions p0 entries.length)
    else pure ap
  let opss ← (entries.zip positions).mapM (fun ep =>
    entry_ops_raw ep.2.1 ep.2.2 "tiro" ep.1)
  pure opss.flatten

/-- `make_excel_safe_name`:
`"".join(c if c.isalnum() else "_" for c in name)[:31] or "Sheet"`.
`str.isalnum` is modelled on ASCII. -/
def make_excel_safe_name (name : String) : String :=
  let mapped := name.toList.map (fun c => if c.isAlphanum then c else '_')
  let truncated := mapped.take 31
  if truncated = [] then "Sheet" else String.mk truncated

/-- Spec-side reading of the worksheet name for claim C6: every
non-alphanumeric character replaced by an underscore, truncated to at most
31 characters, and `"Sheet"` when that result would be empty (which
happens exactly for the empty name). -/
def excel_safe_name_spec (name : String) : String :=
  if name = "" then "Sheet"
  else String.mk ((name.toList.map (fun c => if c.isAlphanum then c else '_')).take 31)

/-- One `to_excel` call on the combined workbook: the writer keys
worksheets by sheet name, so a call whose name is already used does not
add a second worksheet (pandas writes into the existing sheet; pandas
1.4+ in write mode raises `ValueError` instead — in neither case does a
new worksheet appear). -/
def add_new (acc : List String) (n : String) : List String :=
  if n ∈ acc then acc else acc ++ [n]

/-- Worksheet names of the combined Excel workbook: `per_file_data`
collects `make_excel_safe_name custom_pdf_name` per processed PDF in
upload order, the `pd.ExcelWriter` loop calls `to_excel` once per
collected row in that order, and each call creates a worksheet only when
its sheet name is not already present.  The `used_names` guard in the UI
deduplicates only the raw chosen names, not the sanitized ones. -/
def workbook_sheet_names (chosen_names : List String) : List String :=
  (chosen_names.map make_excel_safe_name).foldl add_new []

/-- A row of the DataFrame as seen by `build_ref_summary`: the grouping
key (`none` models a NaN/None reference, grouped together by
`dropna=False`) and the two measured columns, where `notna` holds only
for an actual number. -/
structure SRow where
  reference : Option String
  width : Option PF
  height : Option PF

/-- `pd.notna` on a cell of the `width`/`height` columns. -/
def notna_pf : Option PF → Bool
  | some (.num _) => true
  | _ => false

/-- The `survey_mask` predicate: width and height both non-null. -/
def surveyed (r : SRow) : Bool :=
  notna_pf r.width && notna_pf r.height

/-- The group keys of `groupby("reference", dropna=False)`.  Pandas sorts
the keys; the keys themselves, not their order, matter below, so first
appearance order is used. -/
def distinct_refs (df : List SRow) : List (Option String) :=
  (df.map (fun r => r.reference)).dedup

/-- `Order` column: group size. -/
def order_count (df : List SRow) (r : Option String) : Nat :=
  df.countP (fun row => row.reference == r)

/-- `Survey` column: group size of the surveyed rows; the `fillna(0)`
after the outer concat makes this 0 for references with no surveyed
rows. -/
def survey_count (df : List SRow) (r : Option String) : Nat :=
  df.countP (fun row => row.reference == r && surveyed row)

/-- One row of the output of `build_ref_summary`. -/
structure SummaryRow where
  ref : String
  order : Nat
  survey : Nat
deriving DecidableEq

/-- `build_ref_summary`: one row per reference (a `None` key displayed as
`"Unknown"`) followed by the `Total` row holding the column sums. -/
def build_ref_summary (df : List SRow) : List SummaryRow :=
  let per := (distinct_refs df).map (fun r =>
    { ref := r.getD "Unknown"
      order := order_count df r
      survey := survey_count df r : SummaryRow })
  per ++ [{ ref := "Total"
            order := (per.map (fun row => row.order)).sum
            survey := (per.map (fun row => row.survey)).sum }]

/-- What a successful regex match means, line-wise: four token lines in
increasing order with only whitespace-only lines strictly between them. -/
def regex_block (L : List String) (a b c d : Nat) : Prop :=
  a < b ∧ b < c ∧ c < d ∧ d < L.length ∧
  tok1 (L.getD a "") = true ∧ tok2 (L.getD b "") = true ∧
  tok34 (L.getD c "") = true ∧ tok34 (L.getD d "") = true ∧
  (∀ m, a < m → m < b → isBlank (L.getD m "") = true) ∧
  (∀ m, b < m → m < c → isBlank (L.getD m "") = true) ∧
  (∀ m, c < m → m < d → isBlank (L.getD m "") = true)


lemma firstNonBlankAux_sound (L : List String) :
    ∀ fuel j k, firstNonBlankAux L j fuel = some k →
      j ≤ k ∧ k < L.length ∧ isBlank (L.getD k "") = false ∧
      ∀ m, j ≤ m → m < k → isBlank (L.getD m "") = true := by
  intro fuel
  induction fuel with
  | zero => intro j k h; simp [firstNonBlankAux] at h
  | succ n ih =>
    intro j k h
    rw [firstNonBlankAux] at h
    by_cases hlen : L.length ≤ j
    · simp [hlen] at h
    · rw [if_neg hlen] at h
      cases hb : isBlank (L.getD j "") with
      | true =>
        rw [if_pos (by rw [hb])] at h
        obtain ⟨h1, h2, h3, h4⟩ := ih (j + 1) k h
        refine ⟨by omega, h2, h3, ?_⟩
        intro m hm1 hm2
        rcases Nat.eq_or_lt_of_le hm1 with rfl | hlt
        · exact hb
        · exact h4 m (by omega) hm2
      | false =>
        rw [if_neg (by rw [hb]; exact Bool.false_ne_true)] at h
        injection h with h
        subst h
        exact ⟨le_refl _, by omega, hb, fun m hm1 hm2 => by omega⟩

lemma firstNonBlank_sound (L : List String) (j k : Nat)
    (h : firstNonBlank L j = some k) :
    j ≤ k ∧ k < L.length ∧ isBlank (L.getD k "") = false ∧
    ∀ m, j ≤ m → m < k → isBlank (L.getD m "") = true :=
  firstNonBlankAux_sound L _ j k h

lemma matchFrom_sound (L : List String) (j a b c d : Nat)
    (h : matchFrom L j = some (a, b, c, d)) : regex_block L a b c d := by
  unfold matchFrom at h
  cases h1 : firstNonBlank L j with
  | none => rw [h1] at h; simp at h
  | some a' =>
    rw [h1] at h
    dsimp only at h
    cases t1 : tok1 (L.getD a' "") with
    | false => rw [if_neg (by rw [t1]; exact Bool.false_ne_true)] at h; simp at h
    | true =>
      rw [if_pos (by rw [t1])] at h
      cases h2 : firstNonBlank L (a' + 1) with
      | none => rw [h2] at h; simp at h
      | some b' =>
        rw [h2] at h
        dsimp only at h
        cases t2 : tok2 (L.getD b' "") with
        | false => rw [if_neg (by rw [t2]; exact Bool.false_ne_true)] at h; simp at h
        | true =>
          rw [if_pos (by rw [t2])] at h
          cases h3 : firstNonBlank L (b' + 1) with
          | none => rw [h3] at h; simp at h
          | some c' =>
            rw [h3] at h
            dsimp only at h
            cases t3 : tok34 (L.getD c' "") with
            | false => rw [if_neg (by rw [t3]; exact Bool.false_ne_true)] at h; simp at h
            | true =>
              rw [if_pos (by rw [t3])] at h
              cases h4 : firstNonBlank L (c' + 1) with
              | none => rw [h4] at h; simp at h
              | some d' =>
                rw [h4] at h
                dsimp only at h
                cases t4 : tok34 (L.getD d' "") with
                | false => rw [if_neg (by rw [t4]; exact Bool.false_ne_true)] at h; simp at h
                | true =>
                  rw [if_pos (by rw [t4])] at h
                  obtain ⟨e1, e2, e3, e4⟩ : a' = a ∧ b' = b ∧ c' = c ∧ d' = d := by
                    simpa using h
                  rw [← e1, ← e2, ← e3, ← e4]
                  obtain ⟨ha1, ha2, ha3, ha4⟩ := firstNonBlank_sound L j a' h1
                  obtain ⟨hb1, hb2, hb3, hb4⟩ := firstNonBlank_sound L (a' + 1) b' h2
                  obtain ⟨hc1, hc2, hc3, hc4⟩ := firstNonBlank_sound L (b' + 1) c' h3
                  obtain ⟨hd1, hd2, hd3, hd4⟩ := firstNonBlank_sound L (c' + 1) d' h4
                  refine ⟨by omega, by omega, by omega, hd2, t1, t2, t3, t4, ?_, ?_, ?_⟩
                  · intro m hm1 hm2; exact hb4 m (by omega) hm2
                  · intro m hm1 hm2; exact hc4 m (by omega) hm2
                  · intro m hm1 hm2; exact hd4 m (by omega) hm2

lemma scanFrom_mem (L : List String) :
    ∀ fuel j blk, blk ∈ scanFrom L j fuel →
      ∃ j' a b c d, matchFrom L j' = some (a, b, c, d) ∧ blk = mkBlock L j' a c d := by
  intro fuel
  induction fuel with
  | zero => intro j blk h; simp [scanFrom] at h
  | succ n ih =>
    intro j blk h
    rw [scanFrom] at h
    by_cases hlen : L.length ≤ j
    · simp [hlen] at h
    · rw [if_neg hlen] at h
      cases hm : matchFrom L j with
      | none =>
        rw [hm] at h
        exact ih (j + 1) blk h
      | some t =>
        obtain ⟨a, b, c, d⟩ := t
        rw [hm] at h
        dsimp only at h
        rcases List.mem_cons.mp h with rfl | h
        · exact ⟨j, a, b, c, d, hm, rfl⟩
        · exact ih (d + 1) blk h

lemma findAnchorAux_some (L : List String) :
    ∀ fuel j k, findAnchorAux L j fuel = some k →
      j ≤ k ∧ k < j + fuel ∧ isRefLine (L.getD k "") = true ∧
      ∀ m, j ≤ m → m < k → isRefLine (L.getD m "") = false := by
  intro fuel
  induction fuel with
  | zero => intro j k h; simp [findAnchorAux] at h
  | succ n ih =>
    intro j k h
    rw [findAnchorAux] at h
    cases hr : isRefLine (L.getD j "") with
    | true =>
      rw [if_pos (by rw [hr])] at h
      injection h with h
      subst h
      exact ⟨le_refl _, by omega, hr, fun m hm1 hm2 => by omega⟩
    | false =>
      rw [if_neg (by rw [hr]; exact Bool.false_ne_true)] at h
      obtain ⟨h1, h2, h3, h4⟩ := ih (j + 1) k h
      refine ⟨by omega, by omega, h3, ?_⟩
      intro m hm1 hm2
      rcases Nat.eq_or_lt_of_le hm1 with rfl | hlt
      · exact hr
      · exact h4 m (by omega) hm2

lemma findAnchorAux_none (L : List String) :
    ∀ fuel j, findAnchorAux L j fuel = none →
      ∀ m, j ≤ m → m < j + fuel → isRefLine (L.getD m "") = false := by
  intro fuel
  induction fuel with
  | zero => intro j _ m hm1 hm2; omega
  | succ n ih =>
    intro j h m hm1 hm2
    rw [findAnchorAux] at h
    cases hr : isRefLine (L.getD j "") with
    | true => rw [if_pos (by rw [hr])] at h; simp at h
    | false =>
      rw [if_neg (by rw [hr]; exact Bool.false_ne_true)] at h
      rcases Nat.eq_or_lt_of_le hm1 with rfl | hlt
      · exact hr
      · exact ih (j + 1) h m (by omega) (by omega)

lemma countP_mono_bool {α : Type} (l : List α) (p q : α → Bool)
    (h : ∀ x, p x = true → q x = true) : l.countP p ≤ l.countP q := by
  induction l with
  | nil => simp
  | cons a t ih =>
    rw [List.countP_cons, List.countP_cons]
    cases hp : p a with
    | false => cases hq : q a <;> simp [hp, hq] <;> omega
    | true => simp [hp, h a hp]; omega

lemma pairwise_le_map_const {α : Type} (l : List α) (n : Nat) :
    List.Pairwise (fun x y : Nat => x ≤ y) (l.map (fun _ => n)) := by
  induction l with
  | nil => simp
  | cons a t ih =>
    rw [List.map_cons, List.pairwise_cons]
    refine ⟨?_, ih⟩
    intro y hy
    obtain ⟨x, _, rfl⟩ := List.mem_map.mp hy
    exact le_refl n

lemma aperture_positions_from_ge (ps : List Page) :
    ∀ n q r, (q, r) ∈ aperture_positions_from n ps → n ≤ q := by
  induction ps with
  | nil => intro n q r h; simp [aperture_positions_from] at h
  | cons p t ih =>
    intro n q r h
    rw [aperture_positions_from] at h
    rcases List.mem_append.mp h with h | h
    · obtain ⟨x, _, hx⟩ := List.mem_map.mp h
      exact le_of_eq (congrArg Prod.fst hx)
    · exact Nat.le_of_succ_le (ih (n + 1) q r h)

lemma aperture_positions_from_pairwise (ps : List Page) :
    ∀ n, List.Pairwise (fun x y : Nat => x ≤ y)
      ((aperture_positions_from n ps).map Prod.fst) := by
  induction ps with
  | nil => intro n; simp [aperture_positions_from]
  | cons p t ih =>
    intro n
    rw [aperture_positions_from, List.map_append]
    refine List.pairwise_append.mpr ⟨?_, ih (n + 1), ?_⟩
    · rw [List.map_map]
      exact pairwise_le_map_const _ n
    · intro x hx y hy
      rw [List.map_map] at hx
      obtain ⟨r, _, rfl⟩ := List.mem_map.mp hx
      obtain ⟨⟨q, r'⟩, hq, rfl⟩ := List.mem_map.mp hy
      have := aperture_positions_from_ge t (n + 1) q r' hq
      simp only [Function.comp]
      omega

/-- C1: for an annotated entry whose measured width and height are both
present and whose order width and height are both present as numbers,
`update_pdf` picks red `(1,0,0)` for text and border if and only if the
order width differs from the measured width by more than 75 or the order
height differs from the measured height by more than 75, and blue
`(0,0,1)` otherwise; a difference of exactly 75 is blue. -/
theorem annotation_colors_red_iff (sw sh ow oh : ℚ) :
    (annotation_colors (some (.num sw)) (some (.num sh)) (some (.num ow)) (some (.num oh))
        = (red, red) ↔ 75 < |ow - sw| ∨ 75 < |oh - sh|)
    ∧ (annotation_colors (some (.num sw)) (some (.num sh)) (some (.num ow)) (some (.num oh))
        = (blue, blue) ↔ ¬(75 < |ow - sw| ∨ 75 < |oh - sh|))
    ∧ annotation_colors (some (.num sw)) (some (.num sh)) (some (.num (sw + 75)))
        (some (.num (sh - 75))) = (blue, blue) := by
  have key : ∀ x y : ℚ,
      annotation_colors (some (.num sw)) (some (.num sh)) (some (.num x)) (some (.num y))
        = if 75 < |x - sw| ∨ 75 < |y - sh| then (red, red) else (blue, blue) := by
    intro x y
    show (if (decide (75 < |x - sw|) || decide (75 < |y - sh|)) = true
        then ((red, red) : RGB × RGB) else (blue, blue)) = _
    simp only [Bool.or_eq_true, decide_eq_true_eq]
  refine ⟨?_, ?_, ?_⟩
  · by_cases hc : 75 < |ow - sw| ∨ 75 < |oh - sh|
    · rw [key, if_pos hc]; exact iff_of_true rfl hc
    · rw [key, if_neg hc]; exact iff_of_false (by decide) hc
  · by_cases hc : 75 < |ow - sw| ∨ 75 < |oh - sh|
    · rw [key, if_pos hc]; exact iff_of_false (by decide) (not_not_intro hc)
    · rw [key, if_neg hc]; exact iff_of_true rfl hc
  · have hc : ¬(75 < |sw + 75 - sw| ∨ 75 < |sh - 75 - sh|) := by
      rw [show sw + 75 - sw = (75 : ℚ) by ring, show sh - 75 - sh = (-75 : ℚ) by ring]
      norm_num
    rw [key, if_neg hc]

/-- C5: whenever the measured width or the measured height extracts to
`None` (which is what `extract_editor_value` returns for `None`, NaN, the
empty string and non-numeric strings), the annotation text and border are
blue `(0,0,1)` no matter how far the order dimensions are from any present
measurement. -/
theorem annotation_colors_blue_when_missing (sw sh ow oh : Option PF) :
    annotation_colors none sh ow oh = (blue, blue)
    ∧ annotation_colors sw none ow oh = (blue, blue)
    ∧ extract_editor_value .pnan = .ok none
    ∧ extract_editor_value (.pstr "") = .ok none
    ∧ extract_editor_value (.pstr "n/a") = .ok none
    ∧ extract_editor_value .pnone = .ok none := by
  refine ⟨?_, ?_, rfl, rfl, rfl, rfl⟩
  · cases sh <;> rfl
  · cases sw <;> rfl

/-- C2 (amended): every block returned by `extract_sales_blocks` comes
from four lines `a < b < c < d` of the text matching `0\d{3}`, `1`, a
2-to-4-digit number and a 2-to-4-digit number up to surrounding
whitespace, with only whitespace-only lines strictly between them (the
four lines need not be consecutive); `sales_line` is the stripped first
line, `order_height` is the third line parsed as an integer and
`order_width` is the fourth line parsed as an integer. -/
theorem extract_sales_blocks_sound (L : List String) (blk : Block)
    (h : blk ∈ extract_sales_blocks L) :
    ∃ a b c d, regex_block L a b c d ∧
      blk.sales_line = stripPy (L.getD a "") ∧
      blk.order_height = natOfDigits (stripPy (L.getD c "")).toList ∧
      blk.order_width = natOfDigits (stripPy (L.getD d "")).toList := by
  obtain ⟨j, a, b, c, d, hm, rfl⟩ := scanFrom_mem L _ 0 blk h
  exact ⟨a, b, c, d, matchFrom_sound L j a b c d hm, rfl, rfl, rfl⟩

def c2Lines : List String := ["0123", "", "1", "12", "34"]

/-- C2 (counterexample): on a text whose `0123` line is separated from the
`1` line by a blank line, no four CONSECUTIVE lines match the token
shapes — the claimed reading produces no block — yet `extract_sales_blocks`
returns one block, because `\s` in the regex also matches newlines. -/
theorem extract_sales_blocks_not_consecutive :
    consecutive_blocks c2Lines = []
    ∧ (extract_sales_blocks c2Lines).map Block.sales_line = ["0123"] := by
  constructor <;> rfl

def c2WitnessLines : List String := ["0101", "1", "900", "800"]

def c2WitnessBlock : Block :=
  { sales_line := "0101", order_width := 800, order_height := 900,
    reference := "", location := "", system := "",
    width := none, height := none, location_input := "", remarks := "" }

theorem extract_sales_blocks_sound_witness :
    c2WitnessBlock ∈ extract_sales_blocks c2WitnessLines
    ∧ ∃ a b c d, regex_block c2WitnessLines a b c d ∧
        c2WitnessBlock.sales_line = stripPy (c2WitnessLines.getD a "") ∧
        c2WitnessBlock.order_height = natOfDigits (stripPy (c2WitnessLines.getD c "")).toList ∧
        c2WitnessBlock.order_width = natOfDigits (stripPy (c2WitnessLines.getD d "")).toList :=
  ⟨by decide, extract_sales_blocks_sound c2WitnessLines c2WitnessBlock (by decide)⟩

/-- C7: every block returned by `extract_sales_blocks` has its user-entry
fields initialized empty — `width = None`, `height = None`,
`location_input = ""` and `remarks = ""` — so measured values can only
come from user input. -/
theorem extract_sales_blocks_user_fields_empty (L : List String) (blk : Block)
    (h : blk ∈ extract_sales_blocks L) :
    blk.width = none ∧ blk.height = none ∧ blk.location_input = "" ∧ blk.remarks = "" := by
  obtain ⟨j, a, b, c, d, _, rfl⟩ := scanFrom_mem L _ 0 blk h
  exact ⟨rfl, rfl, rfl, rfl⟩

def c7Lines : List String := ["0202", "1", "55", "66"]

def c7Block : Block :=
  { sales_line := "0202", order_width := 66, order_height := 55,
    reference := "", location := "", system := "",
    width := none, height := none, location_input := "", remarks := "" }

theorem extract_sales_blocks_user_fields_empty_witness :
    c7Block.width = none ∧ c7Block.height = none
    ∧ c7Block.location_input = "" ∧ c7Block.remarks = "" :=
  extract_sales_blocks_user_fields_empty c7Lines c7Block (by decide)

/-- C3: for every detected sales block (whose fields come from
`metaFields L start` with `start` the match's starting line), the anchor
is the first line at or after `start`, within the next 100 lines and
inside the text, whose stripped lowercased content starts with
"reference"; when it exists at index `k ≥ 3` the metadata are the
stripped lines `k-3`, `k-2`, `k-1` (reference, location, system), and
when no anchor exists in the window or `k < 3` all three are empty. -/
theorem metaFields_anchor_spec (L : List String) (start : Nat) :
    (∀ k, findAnchor L start = some k →
      start ≤ k ∧ k < start + 100 ∧ k < L.length ∧ isRefLine (L.getD k "") = true ∧
      ∀ m, start ≤ m → m < k → isRefLine (L.getD m "") = false)
    ∧ (findAnchor L start = none →
      ∀ m, start ≤ m → m < start + 100 → m < L.length → isRefLine (L.getD m "") = false)
    ∧ (∀ k, findAnchor L start = some k → 3 ≤ k →
      metaFields L start =
        (stripPy (L.getD (k - 3) ""), stripPy (L.getD (k - 2) ""), stripPy (L.getD (k - 1) "")))
    ∧ (∀ k, findAnchor L start = some k → k < 3 → metaFields L start = ("", "", ""))
    ∧ (findAnchor L start = none → metaFields L start = ("", "", ""))
    ∧ (∀ j a c d,
      ((mkBlock L j a c d).reference, (mkBlock L j a c d).location, (mkBlock L j a c d).system)
        = metaFields L j) := by
  refine ⟨?_, ?_, ?_, ?_, ?_, ?_⟩
  · intro k h
    obtain ⟨h1, h2, h3, h4⟩ := findAnchorAux_some L _ start k h
    exact ⟨h1, by omega, by omega, h3, h4⟩
  · intro h m hm1 hm2 hm3
    exact findAnchorAux_none L _ start h m hm1 (by omega)
  · intro k h hk
    unfold metaFields
    rw [h]
    dsimp only
    rw [if_pos hk]
  · intro k h hk
    unfold metaFields
    rw [h]
    dsimp only
    rw [if_neg (show ¬3 ≤ k by omega)]
  · intro h
    unfold metaFields
    rw [h]
  · intro j a c d
    rfl

def c3Lines : List String :=
  ["W1 House", "Kitchen", "uPVC", "Reference data", "0101", "1", "900", "800"]

theorem metaFields_anchor_spec_witness :
    metaFields c3Lines 0 = ("W1 House", "Kitchen", "uPVC")
    ∧ (0 ≤ 3 ∧ 3 < 0 + 100 ∧ 3 < c3Lines.length ∧ isRefLine (c3Lines.getD 3 "") = true
        ∧ ∀ m, 0 ≤ m → m < 3 → isRefLine (c3Lines.getD m "") = false) :=
  ⟨((metaFields_anchor_spec c3Lines 0).2.2.1 3 (by decide) (by decide)).trans (by decide),
   (metaFields_anchor_spec c3Lines 0).1 3 (by decide)⟩

lemma str_append_mid_ne (a b : String) : a ++ " : " ++ b ≠ "" := by
  intro h
  have hl := congrArg String.length h
  rw [String.length_append, String.length_append] at hl
  have h3 : (" : ").length = 3 := rfl
  have h0 : ("").length = 0 := rfl
  rw [h3, h0] at hl
  omega

/-- C4: for every entry with a corresponding aperture anchor, the first
annotation line is inserted at the fixed offset
`(anchor.x1 + 40, anchor.y0 + 2)` from the anchor rectangle, the remarks
line (when its stripped text is non-empty) sits `int(14 * 1.6) = 22`
points below it, and the anchor positions for the three case variants of
"Aperture Size" are collected in non-decreasing page order. -/
theorem entry_ops_placement :
    base_offset_x = 40 ∧ line_spacing = 22
    ∧ (∀ (pg : Nat) (inst : Rect) (fn : String) (sw sh ow oh : Option PF)
        (loc rem : Option String),
        DrawOp.dtext pg (inst.x1 + base_offset_x) (inst.y0 + 2)
            (stripPy (loc.getD "") ++ " : " ++ size_text sw sh) font_size fn
            (annotation_colors sw sh ow oh).1
          ∈ entry_ops pg inst fn sw sh ow oh loc rem)
    ∧ (∀ (pg : Nat) (inst : Rect) (fn : String) (sw sh ow oh : Option PF)
        (loc rem : Option String), stripPy (rem.getD "") ≠ "" →
        DrawOp.dtext pg (inst.x1 + base_offset_x) (inst.y0 + 2 + (line_spacing : ℚ))
            (stripPy (rem.getD "")) font_size fn (annotation_colors sw sh ow oh).1
          ∈ entry_ops pg inst fn sw sh ow oh loc rem)
    ∧ (∀ pages : List Page,
        List.Pairwise (fun x y : Nat => x ≤ y) ((aperture_positions pages).map Prod.fst)) := by
  refine ⟨rfl, ?_, ?_, ?_, ?_⟩
  · have h : line_spacing = ⌊(font_size * (16 / 10) : ℚ)⌋ := rfl
    rw [h]
    norm_num [font_size, Int.floor_eq_iff]
  · intro pg inst fn sw sh ow oh loc rem
    have hne : (stripPy (loc.getD "") ++ " : " ++ size_text sw sh) ≠ "" :=
      str_append_mid_ne _ _
    simp only [entry_ops, draw_text_with_colored_border, if_neg hne]
    exact List.mem_append_left _ (by simp)
  · intro pg inst fn sw sh ow oh loc rem hrem
    have hne : (stripPy (loc.getD "") ++ " : " ++ size_text sw sh) ≠ "" :=
      str_append_mid_ne _ _
    simp only [entry_ops, draw_text_with_colored_border, if_neg hne, if_neg hrem]
    exact List.mem_append_right _ (by simp)
  · intro pages
    exact aperture_positions_from_pairwise pages 0

theorem entry_ops_placement_witness :
    DrawOp.dtext 0 ((Rect.mk 0 0 10 20).x1 + base_offset_x)
        ((Rect.mk 0 0 10 20).y0 + 2 + (line_spacing : ℚ))
        (stripPy ((some "note").getD "")) font_size "tiro"
        (annotation_colors none none none none).1
      ∈ entry_ops 0 (Rect.mk 0 0 10 20) "tiro" none none none none
        (some "Lounge") (some "note") :=
  entry_ops_placement.2.2.2.1 0 (Rect.mk 0 0 10 20) "tiro" none none none none
    (some "Lounge") (some "note") (by decide)

lemma add_new_fold_spec :
    ∀ (l acc : List String), ∃ l2,
      l.foldl add_new acc = acc ++ l2 ∧ List.Sublist l2 l
      ∧ (∀ x, x ∈ l → x ∈ acc ++ l2)
      ∧ (acc.Nodup → (acc ++ l2).Nodup) := by
  intro l
  induction l with
  | nil =>
    intro acc
    exact ⟨[], by simp, List.nil_sublist _, by simp, fun h => by simpa using h⟩
  | cons a t ih =>
    intro acc
    by_cases ha : a ∈ acc
    · obtain ⟨l2, h1, h2, h3, h4⟩ := ih acc
      refine ⟨l2, ?_, h2.cons a, ?_, h4⟩
      · rw [List.foldl_cons, show add_new acc a = acc from if_pos ha]
        exact h1
      · intro x hx
        rcases List.mem_cons.mp hx with rfl | hx
        · exact List.mem_append_left _ ha
        · exact h3 x hx
    · obtain ⟨l2, h1, h2, h3, h4⟩ := ih (acc ++ [a])
      refine ⟨a :: l2, ?_, h2.cons₂ a, ?_, ?_⟩
      · rw [List.foldl_cons, show add_new acc a = acc ++ [a] from if_neg ha, h1,
          List.append_assoc, List.singleton_append]
      · intro x hx
        rcases List.mem_cons.mp hx with rfl | hx
        · exact List.mem_append_right _ (List.mem_cons_self _ _)
        · have hx2 := h3 x hx
          rw [List.append_assoc, List.singleton_append] at hx2
          exact hx2
      · intro hnd
        have hnd2 : (acc ++ [a]).Nodup := by
          rw [List.nodup_append]
          refine ⟨hnd, List.nodup_singleton a, ?_⟩
          intro x hx hxa
          rw [List.mem_singleton] at hxa
          subst hxa
          exact ha hx
        have h5 := h4 hnd2
        rw [List.append_assoc, List.singleton_append] at h5
        exact h5

lemma add_new_fold_of_nodup :
    ∀ (l acc : List String), (acc ++ l).Nodup → l.foldl add_new acc = acc ++ l := by
  intro l
  induction l with
  | nil => intro acc _; simp
  | cons a t ih =>
    intro acc hnd
    have ha : a ∉ acc := by
      rw [List.nodup_append] at hnd
      intro hmem
      exact hnd.2.2 hmem (List.mem_cons_self a t)
    rw [List.foldl_cons, show add_new acc a = acc ++ [a] from if_neg ha]
    have hih := ih (acc ++ [a]) (by rw [List.append_assoc, List.singleton_append]; exact hnd)
    rw [hih, List.append_assoc, List.singleton_append]

/-- C6 (counterexample): two distinct chosen output names pass the
raw-name duplicate guard (`used_names` compares the names as typed) yet
sanitize to the same sheet name, so the name-keyed writer creates only
one worksheet for two processed PDFs — the export does not contain
exactly one worksheet per processed PDF. -/
theorem workbook_merges_colliding_sheet_names :
    ("Report 1" : String) ≠ "Report.1"
    ∧ make_excel_safe_name "Report 1" = make_excel_safe_name "Report.1"
    ∧ workbook_sheet_names ["Report 1", "Report.1"] = ["Report_1"]
    ∧ (["Report 1", "Report.1"] : List String).length = 2 :=
  ⟨by decide, by decide, by decide, rfl⟩

/-- C6 (amended): each worksheet's name is the chosen output name with
every non-alphanumeric character replaced by `_`, truncated to at most 31
characters, and `"Sheet"` when that result would be empty (i.e. for the
empty name), always of length at most 31.  The combined workbook holds
one worksheet per DISTINCT sanitized name, created at its first use in
upload order (a later `to_excel` call with an already-used name adds no
worksheet), so it has exactly one worksheet per processed PDF if and only
if the sanitized names are pairwise distinct. -/
theorem excel_export_sheets_spec :
    (∀ name : String, make_excel_safe_name name = excel_safe_name_spec name)
    ∧ (∀ name : String, (make_excel_safe_name name).length ≤ 31)
    ∧ (∀ chosen_names : List String,
        (workbook_sheet_names chosen_names).Nodup
        ∧ List.Sublist (workbook_sheet_names chosen_names)
            (chosen_names.map make_excel_safe_name)
        ∧ (∀ n, n ∈ chosen_names →
            make_excel_safe_name n ∈ workbook_sheet_names chosen_names)
        ∧ ((workbook_sheet_names chosen_names).length = chosen_names.length
            ↔ (chosen_names.map make_excel_safe_name).Nodup)) := by
  refine ⟨?_, ?_, ?_⟩
  · intro name
    unfold make_excel_safe_name excel_safe_name_spec
    cases hdata : name.toList with
    | nil =>
      have hname : name = "" := by
        cases name with
        | mk data => exact congrArg String.mk hdata
      subst hname
      rfl
    | cons c cs =>
      have hname : name ≠ "" := by
        intro hcon
        subst hcon
        exact List.noConfusion hdata
      have step : (List.map (fun ch => if ch.isAlphanum then ch else '_') (c :: cs)).take 31
          = (if c.isAlphanum then c else '_')
            :: (List.map (fun ch => if ch.isAlphanum then ch else '_') cs).take 30 := rfl
      have hne : (List.map (fun ch => if ch.isAlphanum then ch else '_') (c :: cs)).take 31
          ≠ [] := by
        rw [step]
        exact List.cons_ne_nil _ _
      rw [if_neg hname]
      dsimp only
      rw [if_neg hne]
  · intro name
    unfold make_excel_safe_name
    dsimp only
    by_cases h : (name.toList.map fun c => if c.isAlphanum then c else '_').take 31 = []
    · rw [if_pos h]; decide
    · rw [if_neg h]
      have hlen : ((name.toList.map fun c => if c.isAlphanum then c else '_').take 31).length
          ≤ 31 := by
        rw [List.length_take]
        omega
      exact hlen
  · intro names
    obtain ⟨l2, h1, h2, h3, h4⟩ := add_new_fold_spec (names.map make_excel_safe_name) []
    have h1w : workbook_sheet_names names = l2 := by
      unfold workbook_sheet_names
      rw [h1, List.nil_append]
    have hnd2 : l2.Nodup := by
      have := h4 List.nodup_nil
      rwa [List.nil_append] at this
    refine ⟨?_, ?_, ?_, ?_⟩
    · rw [h1w]; exact hnd2
    · rw [h1w]; exact h2
    · intro n hn
      rw [h1w]
      have := h3 (make_excel_safe_name n) (List.mem_map_of_mem _ hn)
      rwa [List.nil_append] at this
    · constructor
      · intro hlen2
        rw [h1w] at hlen2
        have hml : l2.length = (names.map make_excel_safe_name).length := by
          rw [List.length_map]
          exact hlen2
        have heq2 : l2 = names.map make_excel_safe_name := h2.eq_of_length hml
        rwa [heq2] at hnd2
      · intro hnd
        have hfold := add_new_fold_of_nodup (names.map make_excel_safe_name) []
          (by rwa [List.nil_append])
        unfold workbook_sheet_names
        rw [hfold, List.nil_append, List.length_map]

theorem excel_export_sheets_spec_witness :
    make_excel_safe_name "Site A" ∈ workbook_sheet_names ["Site A", "Site B"] :=
  (excel_export_sheets_spec.2.2 ["Site A", "Site B"]).2.2.1 "Site A" (by decide)

/-- C8 (counterexample): `extract_editor_value` applied to a two-element
list raises `ValueError` — `pd.isna` returns a two-element boolean array
and its truth test in `if pd.isna(val) or ...` is ambiguous — so it is not
exception-free on every list input. -/
theorem extract_editor_value_raises_on_pair :
    extract_editor_value (.plist [.pnum 1, .pnum 2])
      = .error "ValueError: ambiguous truth value" := rfl

/-- C8 (amended): `extract_editor_value` returns a float or `None` and
raises no exception on every input whose `pd.isna` truth test is
unambiguous — `None`, scalars, strings, dicts, and singleton lists or
arrays; non-numeric strings, the empty string, NaN and `None` all map to
`None`; lists and arrays with two or more elements (and, on current
NumPy, empty ones) make the `pd.isna(val)` truth test raise
`ValueError`. -/
theorem extract_editor_value_total_when_unambiguous :
    (∀ v : PyVal, except_ok (isna_truth v) = true
      → except_ok (extract_editor_value v) = true)
    ∧ (∀ s : String, pyFloatOfString s = none
      → extract_editor_value (.pstr s) = .ok none)
    ∧ extract_editor_value .pnan = .ok none
    ∧ extract_editor_value .pnone = .ok none
    ∧ extract_editor_value (.pstr "") = .ok none
    ∧ (∀ xs : List PyVal, 2 ≤ xs.length →
      extract_editor_value (.plist xs) = .error "ValueError: ambiguous truth value") := by
  refine ⟨?_, ?_, rfl, rfl, rfl, ?_⟩
  · intro v hv
    unfold extract_editor_value
    cases hna : isna_truth v with
    | error e =>
      rw [hna] at hv
      exact absurd hv (by simp [except_ok])
    | ok b =>
      dsimp only
      by_cases hcond : (b || py_eq_empty v) = true
      · rw [if_pos hcond]; rfl
      · rw [if_neg hcond]
        cases v with
        | plist xs => cases xs <;> rfl
        | pnone => rfl
        | pnum q => rfl
        | pnan => rfl
        | pstr s => rfl
        | pdict kvs => rfl
  · intro s hs
    unfold extract_editor_value
    rw [show isna_truth (.pstr s) = .ok false from rfl]
    dsimp only
    by_cases h : s == ""
    · rw [if_pos (by simp [py_eq_empty, h])]
    · rw [if_neg (by simp [py_eq_empty]; simpa using h)]
      show Except.ok (py_float (dict_step (PyVal.pstr s))) = Except.ok none
      rw [show py_float (dict_step (PyVal.pstr s)) = (pyFloatOfString s).map PF.num from rfl, hs]
      rfl
  · intro xs hxs
    match xs, hxs with
    | x :: y :: t, _ => rfl

theorem extract_editor_value_total_when_unambiguous_witness :
    except_ok (extract_editor_value (PyVal.pstr "xy")) = true
    ∧ extract_editor_value (PyVal.pstr "zz") = Except.ok none
    ∧ extract_editor_value (PyVal.plist [PyVal.pnone, PyVal.pnone, PyVal.pnone])
        = Except.error "ValueError: ambiguous truth value" :=
  ⟨extract_editor_value_total_when_unambiguous.1 (PyVal.pstr "xy") rfl,
   extract_editor_value_total_when_unambiguous.2.1 "zz" rfl,
   extract_editor_value_total_when_unambiguous.2.2.2.2.2
     [PyVal.pnone, PyVal.pnone, PyVal.pnone] (by decide)⟩

lemma survey_le_order (df : List SRow) (r : Option String) :
    survey_count df r ≤ order_count df r := by
  unfold survey_count order_count
  exact countP_mono_bool df _ _ (fun row h => by
    rcases Bool.and_eq_true .. |>.mp h with ⟨h1, _⟩
    exact h1)

/-- C9: in every summary produced by `build_ref_summary`, every row — each
per-reference row and the final `Total` row — has `Survey ≤ Order`: the
rows counted as surveyed (width and height both non-null) are a subset of
the rows grouped under the same reference, and the `Total` row is the
column-wise sum of the per-reference rows. -/
theorem build_ref_summary_survey_le_order (df : List SRow) (row : SummaryRow)
    (h : row ∈ build_ref_summary df) : row.survey ≤ row.order := by
  unfold build_ref_summary at h
  rcases List.mem_append.mp h with h | h
  · obtain ⟨r, _, rfl⟩ := List.mem_map.mp h
    exact survey_le_order df r
  · rcases List.mem_singleton.mp h with rfl
    dsimp only
    rw [List.map_map, List.map_map]
    exact List.sum_le_sum (fun r _ => survey_le_order df r)

def c9Rows : List SRow :=
  [{ reference := some "W1", width := some (.num 100), height := some (.num 200) },
   { reference := some "W1", width := none, height := some (.num 5) }]

theorem build_ref_summary_survey_le_order_witness :
    SummaryRow.survey { ref := "Total", order := 2, survey := 1 }
      ≤ SummaryRow.order { ref := "Total", order := 2, survey := 1 } :=
  build_ref_summary_survey_le_order c9Rows
    { ref := "Total", order := 2, survey := 1 } (by decide)
